import Mathlib

/-!
Shallow embedding of the authentication core of the Login_Portal repository
(server auth module: password hashing/verification, the registration and
login route handlers, logout and current-user), together with proofs of the
specification's claims about it.

Conventions of the embedding:
* Node `Buffer`s are `List Nat` with entries below 256.
* the scrypt key-derivation function is abstract: every definition is
  parametrised by a `ScryptModel`, a function from password and salt to a
  64-byte key (the source always calls `scrypt(password, salt, 64)`);
* randomness (`randomBytes(16)`) is externalized: `hashPassword` takes the
  salt bytes as an explicit argument;
* JavaScript `undefined` on request fields is `Option.none`; JS truthiness
  on strings ("falsy" = undefined or empty) is the `falsy` predicate;
* exceptions thrown by the Node crypto primitives are the `NodeError`
  variants of an `Except` result, and errors thrown inside the storage
  layer (zod parse failures included) are `StorageError` variants;
* zod's `.email()` validator, like scrypt, is library code, so it is a
  `String → Bool` parameter (`ev`) of the storage definitions.
-/

namespace LoginPortal

/-! ## Hex encoding and decoding (Node `Buffer` semantics) -/

/-- One hex digit character, lowercase, as produced by Node's
`buf.toString("hex")`: `0`–`9` then `a`–`f`. -/
def hexDigitChar (n : Nat) : Char :=
  if n < 10 then Char.ofNat (48 + n) else Char.ofNat (87 + n)

/-- The two hex characters encoding one byte. -/
def byteToHexChars (b : Nat) : List Char :=
  [hexDigitChar (b / 16 % 16), hexDigitChar (b % 16)]

/-- Hex encoding of a byte list, as a character list. -/
def bytesToHexChars (bs : List Nat) : List Char :=
  (bs.map byteToHexChars).flatten

/-- `buf.toString("hex")` on a byte list. -/
def bytesToHex (bs : List Nat) : String :=
  ⟨bytesToHexChars bs⟩

/-- Numeric value of a hex character, `none` when the character is not a
hex digit. -/
def hexCharVal (c : Char) : Option Nat :=
  if 48 ≤ c.toNat ∧ c.toNat ≤ 57 then some (c.toNat - 48)
  else if 97 ≤ c.toNat ∧ c.toNat ≤ 102 then some (c.toNat - 87)
  else if 65 ≤ c.toNat ∧ c.toNat ≤ 70 then some (c.toNat - 55)
  else none

/-- Node's `Buffer.from(str, "hex")`: decode complete hex pairs from the
front, stopping (without error) at the first invalid or incomplete pair. -/
def hexDecodeLoose : List Char → List Nat
  | c1 :: c2 :: rest =>
    match hexCharVal c1, hexCharVal c2 with
    | some h, some l => (h * 16 + l) :: hexDecodeLoose rest
    | _, _ => []
  | _ => []

/-! ## JavaScript `String.prototype.split` on a one-character separator -/

/-- JS `s.split(sep)` for a single-character separator, on character lists.
Always returns a non-empty list; `"".split(".")` is `[""]`,
`"a.".split(".")` is `["a", ""]`. -/
def jsSplitChars (sep : Char) : List Char → List (List Char)
  | [] => [[]]
  | c :: rest =>
    match jsSplitChars sep rest with
    | [] => [[]]
    | p :: ps => if c = sep then [] :: p :: ps else (c :: p) :: ps

/-! ## The scrypt key-derivation primitive, abstracted

The source always invokes `scrypt(password, salt, 64)`, which yields a
64-byte buffer.  The key-derivation function itself is outside the
repository (Node's crypto module), so it is a parameter of the model,
constrained only by the shape of its output. -/

structure ScryptModel where
  /-- `await scryptAsync(password, salt, 64)` as a byte list. -/
  run : String → String → List Nat
  /-- the requested key length is 64 bytes -/
  len_run : ∀ p s, (run p s).length = 64
  /-- buffer entries are bytes -/
  byte_run : ∀ p s, ∀ b ∈ run p s, b < 256

/-! ## `hashPassword` and `comparePasswords` (src/unnamed/part_001, lines 19–30) -/

/-- Errors thrown by the Node crypto primitives inside `comparePasswords`:
`scrypt` throws a `TypeError` when its salt argument is `undefined`, and
`timingSafeEqual` throws a `RangeError` when its two buffers have
different lengths. -/
inductive NodeError where
  | typeError
  | rangeError
  deriving DecidableEq, Repr

instance {ε α : Type} [DecidableEq ε] [DecidableEq α] : DecidableEq (Except ε α) :=
  fun a b =>
    match a, b with
    | .error e, .error f =>
      if h : e = f then .isTrue (by rw [h]) else .isFalse (by simp [h])
    | .ok x, .ok y =>
      if h : x = y then .isTrue (by rw [h]) else .isFalse (by simp [h])
    | .error _, .ok _ => .isFalse (by simp)
    | .ok _, .error _ => .isFalse (by simp)

/-- `hashPassword` (src/unnamed/part_001 lines 19–23): hex-encode the salt
bytes, derive a 64-byte key from the password and the hex salt string, and
return `<key-hex>.<salt-hex>`. -/
def hashPassword (sc : ScryptModel) (password : String) (saltBytes : List Nat) : String :=
  let salt := bytesToHex saltBytes
  let buf := sc.run password salt
  bytesToHex buf ++ "." ++ salt

/-- `comparePasswords` (src/unnamed/part_001 lines 25–30):
`const [hashed, salt] = stored.split(".")` takes the first two fields of
the split; when the digest has no `.`, `salt` is `undefined` and the
`scrypt` call throws a `TypeError`; `Buffer.from(hashed, "hex")` decodes
loosely; `timingSafeEqual` throws a `RangeError` unless both buffers have
the same length, and otherwise returns their equality. -/
def comparePasswords (sc : ScryptModel) (supplied stored : String) : Except NodeError Bool :=
  match jsSplitChars '.' stored.data with
  | [] => .error .typeError
  | [_] => .error .typeError
  | hashed :: salt :: _ =>
    let hashedBuf := hexDecodeLoose hashed
    let suppliedBuf := sc.run supplied ⟨salt⟩
    if hashedBuf.length = suppliedBuf.length then .ok (decide (hashedBuf = suppliedBuf))
    else .error .rangeError

/-! ## A concrete scrypt instance, for evaluating the theorems

A toy key-derivation function used only to instantiate the abstract
`ScryptModel` on concrete inputs (witnesses and counterexamples); the
claims' theorems themselves hold for every model. -/

def scDemo : ScryptModel where
  run := fun p s => List.replicate 63 0 ++ [(p.length + s.length) % 256]
  len_run := by intro p s; simp
  byte_run := by
    intro p s b hb
    simp only [List.mem_append, List.mem_replicate, List.mem_singleton] at hb
    rcases hb with ⟨_, rfl⟩ | rfl
    · omega
    · exact Nat.mod_lt _ (by omega)

/-- A fixed 16-byte salt for concrete evaluations. -/
def demoSalt : List Nat := List.replicate 16 171

/-! ## Data model (users table, src/unnamed/part_001 lines 376–386)

`id` is the serial primary key, `createdAt` the insertion timestamp; the
nullable columns `email`, `phone` and `authCode` are `Option String`. -/

structure User where
  id : Nat
  firstName : String
  lastName : String
  username : String
  email : Option String
  phone : Option String
  password : String
  authCode : Option String
  createdAt : Nat
  deriving DecidableEq, Repr

/-- The `DbUser` insert record built by the register handler (all columns
except the generated `id`/`createdAt`). -/
structure DbUser where
  username : String
  password : String
  firstName : String
  lastName : String
  email : Option String
  phone : Option String
  authCode : Option String
  deriving DecidableEq, Repr

/-- `const { password, ...userWithoutPassword } = user`: every field of the
user except the password digest. -/
structure PublicUser where
  id : Nat
  firstName : String
  lastName : String
  username : String
  email : Option String
  phone : Option String
  authCode : Option String
  createdAt : Nat
  deriving DecidableEq, Repr

/-- The rest/spread `userWithoutPassword` projection. -/
def withoutPassword (u : User) : PublicUser :=
  { id := u.id, firstName := u.firstName, lastName := u.lastName,
    username := u.username, email := u.email, phone := u.phone,
    authCode := u.authCode, createdAt := u.createdAt }

/-! ## The storage adapter (`server/storage.ts`, the second document of
src/SETUP_GUIDE.md, lines 157–249)

`DatabaseStorage` backs the auth module: `getUserByUsername` is a drizzle
`findFirst` on equality of the `username` column, and `createUser`
validates the insert record against the zod `userDbSchema`
(src/unnamed/part_001 lines 409–417), throwing on violation, before
inserting the row and re-fetching it by username. -/

/-- Errors thrown inside `storage.createUser` (server/storage.ts lines
209–246): a zod parse failure on `userDbSchema`, or the
`Failed to retrieve inserted user` error after the insert.  Both are
re-thrown and propagate to the register route's catch. -/
inductive StorageError where
  | zodViolation
  | retrievalFailure
  deriving DecidableEq, Repr

/-- `storage.getUserByUsername` (server/storage.ts lines 201–207):
`db.query.users.findFirst({ where: eq(users.username, username) })` — the
first row whose `username` column equals the argument exactly
(case-sensitive string equality). -/
def getUserByUsername (db : List User) (username : String) : Option User :=
  db.find? (fun u => u.username = username)

/-- The zod `userDbSchema` (src/unnamed/part_001 lines 409–417) as a
validity check on a `DbUser`: firstName and lastName at least 2
characters, username at least 3; email, when present (non-null), must pass
zod's `.email()` validator, which is zod library code and therefore
abstracted as the `ev` parameter; phone, password and authCode are
unconstrained (optional/nullable) strings. -/
def userDbSchemaValid (ev : String → Bool) (d : DbUser) : Bool :=
  (2 ≤ d.firstName.length) && (2 ≤ d.lastName.length) && (3 ≤ d.username.length) &&
  (match d.email with
   | none => true
   | some e => ev e)

/-- The row `db.insert(users).values(validUser)` adds: the validated
record's columns, with the serial primary key as the next id and
`createdAt` as the insertion time. -/
def insertedRow (db : List User) (now : Nat) (d : DbUser) : User :=
  { id := db.length + 1, firstName := d.firstName, lastName := d.lastName,
    username := d.username, email := d.email, phone := d.phone,
    password := d.password, authCode := d.authCode, createdAt := now }

/-- `storage.createUser` (server/storage.ts lines 209–246): validate the
record with `userDbSchema.parse`, throwing on violation; insert the row;
then re-fetch the first row whose username matches, throwing when it is
absent. -/
def createUser (ev : String → Bool) (db : List User) (now : Nat) (d : DbUser) :
    Except StorageError (User × List User) :=
  if userDbSchemaValid ev d then
    let db2 := db ++ [insertedRow db now d]
    match db2.find? (fun v => v.username = d.username) with
    | some insertedUser => .ok (insertedUser, db2)
    | none => .error .retrievalFailure
  else .error .zodViolation

/-! ## Request bodies and JS truthiness -/

/-- A request-body string field: `none` is JavaScript `undefined`. -/
abbrev Field := Option String

/-- JS string truthiness: a field is falsy when it is `undefined` or the
empty string. -/
def falsy : Field → Bool
  | none => true
  | some s => s = ""

/-- The `x || null` normalization applied to `email`, `phone` and
`authCode` before insertion. -/
def orNull (f : Field) : Option String :=
  if falsy f then none else f

/-- `/api/register` request body (src/unnamed/part_001 lines 81–91). -/
structure RegisterRequest where
  username : Field
  password : Field
  firstName : Field
  lastName : Field
  email : Field
  phone : Field
  authCode : Field
  captchaToken : Field
  confirmPassword : Field
  deriving DecidableEq, Repr

/-- `/api/login` request body fields read by the handler. -/
structure LoginRequest where
  username : String
  password : String
  captchaToken : Field
  deriving DecidableEq, Repr

/-- An HTTP-level outcome of a route: an error status with a JSON
`message`, or a status with the user serialized without the password. -/
inductive ApiResult where
  | error (status : Nat) (message : String)
  | user (status : Nat) (u : PublicUser)
  deriving DecidableEq, Repr

/-! ## `/api/register` (src/unnamed/part_001 lines 77–181) -/

def msgMissingFields : String :=
  "Missing required fields: username, password, firstName, and lastName are required"

def msgContactRequired : String := "Either email or phone number is required"

def msgPasswordMismatch : String := "Passwords do not match"

def msgDuplicateUsername : String := "Username already exists"

def msgCaptchaRequired : String := "CAPTCHA verification is required"

def msgInvalidCredentials : String := "Invalid username or password"

def msgNotAuthenticated : String := "Not authenticated"

/-- The `DbUser` record the register handler assembles for
`storage.createUser` (src/unnamed/part_001 lines 155–163). -/
def registrationRecord (sc : ScryptModel) (saltBytes : List Nat)
    (req : RegisterRequest) : DbUser :=
  { username := req.username.getD "",
    password := hashPassword sc (req.password.getD "") saltBytes,
    firstName := req.firstName.getD "", lastName := req.lastName.getD "",
    email := orNull req.email, phone := orNull req.phone,
    authCode := orNull req.authCode }

/-- The register route handler, state-passing on the user table.  Mirrors
the source order: required-field check, contact check, password
confirmation, duplicate lookup, hash, `storage.createUser` — whose zod
validation may throw, the `Except.error` case, forwarded to `next(error)`
— then respond 201 with the created user minus the password
(`captchaToken` is destructured but never checked). -/
def register (sc : ScryptModel) (ev : String → Bool) (db : List User) (now : Nat)
    (saltBytes : List Nat) (req : RegisterRequest) :
    Except StorageError ApiResult × List User :=
  if falsy req.username || falsy req.password || falsy req.firstName || falsy req.lastName then
    (.ok (.error 400 msgMissingFields), db)
  else if falsy req.email && falsy req.phone then
    (.ok (.error 400 msgContactRequired), db)
  else if req.password ≠ req.confirmPassword then
    (.ok (.error 400 msgPasswordMismatch), db)
  else
    match getUserByUsername db (req.username.getD "") with
    | some _ => (.ok (.error 400 msgDuplicateUsername), db)
    | none =>
      match createUser ev db now (registrationRecord sc saltBytes req) with
      | .error e => (.error e, db)
      | .ok (user, db2) => (.ok (.user 201 (withoutPassword user)), db2)

/-! ## `LocalStrategy` and `/api/login` (src/unnamed/part_001 lines 52–64, 183–213) -/

/-- The passport `LocalStrategy` verify callback: look the user up; absent
user or failed comparison yields `done(null, false)`; an exception from
`comparePasswords` is caught and passed to `done(error)`. -/
def localStrategy (sc : ScryptModel) (db : List User) (username password : String) :
    Except NodeError (Option User) :=
  match getUserByUsername db username with
  | none => .ok none
  | some user =>
    match comparePasswords sc password user.password with
    | .error e => .error e
    | .ok true => .ok (some user)
    | .ok false => .ok none

/-- The login route handler: reject when `captchaToken` is falsy, then
authenticate; a falsy strategy result is the uniform 401, a user is
serialized without the password. A strategy exception propagates to
`next(err)` (the `Except.error` case). -/
def login (sc : ScryptModel) (db : List User) (req : LoginRequest) :
    Except NodeError ApiResult :=
  if falsy req.captchaToken then .ok (.error 400 msgCaptchaRequired)
  else
    match localStrategy sc db req.username req.password with
    | .error e => .error e
    | .ok none => .ok (.error 401 msgInvalidCredentials)
    | .ok (some user) => .ok (.user 200 (withoutPassword user))

/-! ## `/api/user` (src/unnamed/part_001 lines 222–230) -/

/-- The current-user route: `req.isAuthenticated()` is having a deserialized
session user; respond 401 otherwise, else the user without the password. -/
def currentUser (sessionUser : Option User) : ApiResult :=
  match sessionUser with
  | none => .error 401 msgNotAuthenticated
  | some u => .user 200 (withoutPassword u)

/-! ## `/api/logout` (src/unnamed/part_001 lines 215–220) and the session store

`storage.sessionStore` (server/storage.ts lines 184–186) only constructs a
`memorystore` instance; the destroy operation `req.logout` triggers is
memorystore/passport library code, outside this repository, and is
therefore modelled from the spec. -/

/-- A session store: session identifiers mapped to account ids. -/
abbrev SessionStore := List (String × Nat)

/-- Modelled from the spec: the Session Store's `destroy(sessionId)` —
`removes the session; idempotent (destroying an absent session is not an
error)`.  This is the effect of `req.logout` on the store. -/
def destroySession (store : SessionStore) (sid : String) : SessionStore :=
  store.filter (fun p => p.1 ≠ sid)

/-- The logout route handler: destroy the request's session and respond
200; there is no failure path for an absent session. -/
def logout (store : SessionStore) (sid : String) : Nat × SessionStore :=
  (200, destroySession store sid)

/-- The row a successful registration appends: the `DbUser` record built
by the handler, completed with the id and timestamp the insert assigns. -/
def registeredUser (sc : ScryptModel) (db : List User) (now : Nat) (saltBytes : List Nat)
    (req : RegisterRequest) : User :=
  insertedRow db now (registrationRecord sc saltBytes req)

/-! ## Concrete instances used to evaluate the theorems -/

/-- A concrete email-validator instance for the abstract `ev` parameter
(zod's `.email()`): accepts the strings containing an `@`. -/
def evDemo : String → Bool := fun e => e.data.contains '@'

/-- A fully valid registration request (it also passes the zod
`userDbSchema`: names of length at least 2, username of length at least 3,
no email to validate). -/
def reqValid : RegisterRequest :=
  { username := some "alice", password := some "Secret123!",
    firstName := some "Alice", lastName := some "Smith",
    email := none, phone := some "+12345678901", authCode := none,
    captchaToken := some "tok-1", confirmPassword := some "Secret123!" }

/-- A registration request with the username missing. -/
def reqNoUsername : RegisterRequest :=
  { reqValid with username := none }

/-- A registration request whose optional fields are present but are all
empty strings. -/
def reqEmptyOptionals : RegisterRequest :=
  { username := some "carol", password := some "pw123456",
    firstName := some "Carol", lastName := some "Davis",
    email := some "", phone := some "+12345678901", authCode := some "",
    captchaToken := some "tok-2", confirmPassword := some "pw123456" }

/-- A registration request with both contact fields present but empty. -/
def reqBothEmpty : RegisterRequest :=
  { reqValid with email := some "", phone := some "" }

/-- The `alice` account as created by a successful registration of
`reqValid` against an empty table at time 0. -/
def aliceUser : User :=
  { id := 1, firstName := "Alice", lastName := "Smith", username := "alice",
    email := none, phone := some "+12345678901",
    password := hashPassword scDemo "Secret123!" demoSalt,
    authCode := none, createdAt := 0 }

/-! # Lemmas and claim theorems -/

/-! ## Basic lemmas about hex and split -/

theorem hexCharVal_hexDigitChar : ∀ n, n < 16 → hexCharVal (hexDigitChar n) = some n := by
  decide

theorem hexDigitChar_ne_dot : ∀ n, n < 16 → hexDigitChar n ≠ '.' := by
  decide

theorem bytesToHexChars_cons (b : Nat) (bs : List Nat) :
    bytesToHexChars (b :: bs) =
      hexDigitChar (b / 16 % 16) :: hexDigitChar (b % 16) :: bytesToHexChars bs := by
  simp [bytesToHexChars, byteToHexChars]

theorem dot_not_mem_byteToHexChars (b : Nat) : '.' ∉ byteToHexChars b := by
  intro h
  simp only [byteToHexChars, List.mem_cons, List.not_mem_nil, or_false] at h
  rcases h with h | h
  · exact hexDigitChar_ne_dot _ (Nat.mod_lt _ (by norm_num)) h.symm
  · exact hexDigitChar_ne_dot _ (Nat.mod_lt _ (by norm_num)) h.symm

theorem dot_not_mem_bytesToHexChars (bs : List Nat) : '.' ∉ bytesToHexChars bs := by
  intro h
  simp only [bytesToHexChars, List.mem_flatten, List.mem_map] at h
  obtain ⟨l, ⟨b, _, rfl⟩, hmem⟩ := h
  exact dot_not_mem_byteToHexChars b hmem

theorem hexDecodeLoose_bytesToHexChars (bs : List Nat) (hb : ∀ b ∈ bs, b < 256) :
    hexDecodeLoose (bytesToHexChars bs) = bs := by
  induction bs with
  | nil => rfl
  | cons b bs ih =>
    have hb0 : b < 256 := hb b (List.mem_cons_self _ _)
    have hdiv : b / 16 < 16 := Nat.div_lt_of_lt_mul (by omega)
    rw [bytesToHexChars_cons, hexDecodeLoose]
    rw [hexCharVal_hexDigitChar _ (Nat.mod_lt _ (by norm_num)),
      hexCharVal_hexDigitChar _ (Nat.mod_lt _ (by norm_num))]
    simp only []
    rw [ih (fun x hx => hb x (List.mem_cons_of_mem _ hx))]
    congr 1
    rw [Nat.mod_eq_of_lt hdiv]
    omega

theorem jsSplitChars_of_not_mem {sep : Char} {l : List Char} (h : sep ∉ l) :
    jsSplitChars sep l = [l] := by
  induction l with
  | nil => rfl
  | cons c rest ih =>
    rw [jsSplitChars]
    rw [ih (fun hx => h (List.mem_cons_of_mem _ hx))]
    simp only []
    rw [if_neg (by rintro rfl; exact h (List.mem_cons_self _ _))]

theorem jsSplitChars_append_sep {sep : Char} {a : List Char} (b : List Char) (h : sep ∉ a) :
    jsSplitChars sep (a ++ sep :: b) = a :: jsSplitChars sep b := by
  induction a with
  | nil =>
    simp only [List.nil_append]
    rw [jsSplitChars]
    cases hsb : jsSplitChars sep b with
    | nil =>
      exfalso
      induction b with
      | nil => simp [jsSplitChars] at hsb
      | cons c rest ihb =>
        rw [jsSplitChars] at hsb
        revert hsb
        cases jsSplitChars sep rest with
        | nil => simp
        | cons p ps =>
          simp only []
          split <;> simp
    | cons p ps => simp
  | cons c rest ih =>
    rw [List.cons_append, jsSplitChars,
      ih (fun hx => h (List.mem_cons_of_mem _ hx))]
    simp only []
    rw [if_neg (by rintro rfl; exact h (List.mem_cons_self _ _))]

theorem length_bytesToHexChars (bs : List Nat) :
    (bytesToHexChars bs).length = 2 * bs.length := by
  induction bs with
  | nil => rfl
  | cons b bs ih =>
    rw [bytesToHexChars_cons]
    simp only [List.length_cons, ih]
    omega

/-! ## The verification result on a digest produced by `hashPassword` -/

theorem data_hashPassword (sc : ScryptModel) (P : String) (saltBytes : List Nat) :
    (hashPassword sc P saltBytes).data =
      bytesToHexChars (sc.run P (bytesToHex saltBytes)) ++ '.' :: bytesToHexChars saltBytes := by
  show (bytesToHex (sc.run P (bytesToHex saltBytes)) ++ "." ++ bytesToHex saltBytes).data = _
  rw [String.data_append, String.data_append, List.append_assoc]
  rfl

/-- Verifying any supplied password `Q` against the digest stored for `P`
reduces to comparing the two derived keys. -/
theorem comparePasswords_hashPassword (sc : ScryptModel) (P Q : String) (saltBytes : List Nat) :
    comparePasswords sc Q (hashPassword sc P saltBytes) =
      .ok (decide (sc.run P (bytesToHex saltBytes) = sc.run Q (bytesToHex saltBytes))) := by
  unfold comparePasswords
  rw [data_hashPassword,
    jsSplitChars_append_sep _ (dot_not_mem_bytesToHexChars _),
    jsSplitChars_of_not_mem (dot_not_mem_bytesToHexChars _)]
  simp only []
  rw [hexDecodeLoose_bytesToHexChars _ (sc.byte_run P (bytesToHex saltBytes))]
  have hsalt : (⟨bytesToHexChars saltBytes⟩ : String) = bytesToHex saltBytes := rfl
  rw [hsalt, if_pos (by rw [sc.len_run, sc.len_run])]

theorem comparePasswords_hashPassword_self (sc : ScryptModel) (P : String)
    (saltBytes : List Nat) :
    comparePasswords sc P (hashPassword sc P saltBytes) = .ok true := by
  rw [comparePasswords_hashPassword]
  simp

theorem comparePasswords_hashPassword_other (sc : ScryptModel) (P Q : String)
    (saltBytes : List Nat)
    (hne : sc.run Q (bytesToHex saltBytes) ≠ sc.run P (bytesToHex saltBytes)) :
    comparePasswords sc Q (hashPassword sc P saltBytes) = .ok false := by
  rw [comparePasswords_hashPassword]
  simp [Ne.symm hne]

/-! ## Claim C1 — the challenge signal in registration -/

/-- C1 (counterexample): a registration request whose challenge signal
(`captchaToken`) is absent is not rejected — it succeeds with status 201
and an account is created, so the claim that registration rejects with
`ChallengeFailed` before any account is created is false on the code. -/
theorem C1_counterexample :
    ({ reqValid with captchaToken := none } : RegisterRequest).captchaToken = none ∧
    (register scDemo evDemo [] 0 demoSalt { reqValid with captchaToken := none }).1
      = .ok (.user 201 ⟨1, "Alice", "Smith", "alice", none, some "+12345678901", none, 0⟩) ∧
    (register scDemo evDemo [] 0 demoSalt { reqValid with captchaToken := none }).2 ≠ [] := by
  refine ⟨rfl, by decide, by decide⟩

/-- C1 (amended): the registration handler never reads the challenge
signal — its result and resulting table are identical for any value of
`captchaToken`, absent included; only the login handler rejects (status
400, "CAPTCHA verification is required") when `captchaToken` is falsy. -/
theorem C1_register_ignores_challenge :
    (∀ (sc : ScryptModel) (ev : String → Bool) (db : List User) (now : Nat)
       (salt : List Nat) (req : RegisterRequest) (t : Field),
       register sc ev db now salt { req with captchaToken := t }
         = register sc ev db now salt req) ∧
    (∀ (sc : ScryptModel) (db : List User) (req : LoginRequest),
       falsy req.captchaToken = true →
       login sc db req = .ok (.error 400 msgCaptchaRequired)) := by
  constructor
  · intro sc ev db now salt req t
    rfl
  · intro sc db req h
    simp [login, h]

/-- Witness for C1's amended theorem at concrete inputs. -/
theorem C1_register_ignores_challenge_witness :
    register scDemo evDemo [] 0 demoSalt { reqValid with captchaToken := none }
        = register scDemo evDemo [] 0 demoSalt reqValid ∧
    login scDemo [] ⟨"alice", "pw", none⟩ = .ok (.error 400 msgCaptchaRequired) :=
  ⟨C1_register_ignores_challenge.1 scDemo evDemo [] 0 demoSalt reqValid none,
   C1_register_ignores_challenge.2 scDemo [] ⟨"alice", "pw", none⟩ (by decide)⟩

/-! ## Claim C2 — verify after hash -/

/-- C2: for every password `P` and salt, verifying `P` against `hash(P)`
returns true; and verifying a password `Q` whose derived key differs from
`P`'s (the content of "distinct passwords, with overwhelming probability"
for a collision-resistant KDF) returns false. -/
theorem C2_verify_hash :
    ∀ (sc : ScryptModel) (P Q : String) (saltBytes : List Nat),
      comparePasswords sc P (hashPassword sc P saltBytes) = .ok true ∧
      (sc.run Q (bytesToHex saltBytes) ≠ sc.run P (bytesToHex saltBytes) →
        comparePasswords sc Q (hashPassword sc P saltBytes) = .ok false) :=
  fun sc P Q saltBytes =>
    ⟨comparePasswords_hashPassword_self sc P saltBytes,
     fun h => comparePasswords_hashPassword_other sc P Q saltBytes h⟩

set_option maxRecDepth 40000 in
/-- Witness for C2 at concrete inputs. -/
theorem C2_verify_hash_witness :
    comparePasswords scDemo "Secret123!" (hashPassword scDemo "Secret123!" demoSalt)
        = .ok true ∧
    comparePasswords scDemo "wrong" (hashPassword scDemo "Secret123!" demoSalt)
        = .ok false :=
  ⟨(C2_verify_hash scDemo "Secret123!" "wrong" demoSalt).1,
   (C2_verify_hash scDemo "Secret123!" "wrong" demoSalt).2 (by decide)⟩

/-! ## Claim C3 — malformed digests -/

/-- C3 (counterexample): `verify` on a malformed digest raises instead of
returning false: a digest with no `.` separator makes `scrypt` throw a
`TypeError` (its salt argument is `undefined`), and a digest whose hash
field does not decode to 64 bytes makes `timingSafeEqual` throw a
`RangeError`. -/
theorem C3_counterexample :
    comparePasswords scDemo "Secret123!" "deadbeef" = .error .typeError ∧
    comparePasswords scDemo "Secret123!" "ab.cd" = .error .rangeError := by
  refine ⟨by decide, by decide⟩

/-- C3 (amended): for every plaintext and malformed digest, `verify` does
not return false but raises: a `TypeError` when the digest contains no `.`
separator, and a `RangeError` when the hash field before the first `.`
does not hex-decode (Node `Buffer.from(_, "hex")` semantics) to exactly
the 64-byte key length. -/
theorem C3_malformed_digest_raises :
    ∀ (sc : ScryptModel) (plaintext stored : String),
      ('.' ∉ stored.data →
        comparePasswords sc plaintext stored = .error .typeError) ∧
      (∀ hashed salt rest, jsSplitChars '.' stored.data = hashed :: salt :: rest →
        (hexDecodeLoose hashed).length ≠ 64 →
        comparePasswords sc plaintext stored = .error .rangeError) := by
  intro sc plaintext stored
  constructor
  · intro hdot
    unfold comparePasswords
    rw [jsSplitChars_of_not_mem hdot]
  · intro hashed salt rest hsplit hlen
    unfold comparePasswords
    rw [hsplit]
    simp only []
    rw [if_neg (by rw [sc.len_run]; exact hlen)]

/-- Witness for C3's amended theorem at concrete inputs. -/
theorem C3_malformed_digest_raises_witness :
    comparePasswords scDemo "pw1" "deadbeef" = .error .typeError ∧
    comparePasswords scDemo "pw1" "ab.cd" = .error .rangeError :=
  ⟨(C3_malformed_digest_raises scDemo "pw1" "deadbeef").1 (by decide),
   (C3_malformed_digest_raises scDemo "pw1" "ab.cd").2
     ['a', 'b'] ['c', 'd'] [] (by decide) (by decide)⟩

/-! ## Claim C4 — username-enumeration resistance of login -/

/-- C4: a login for a username absent from the table and a login for an
existing username with a wrong password are rejected with the identical
error: status 401 with message "Invalid username or password". -/
theorem C4_uniform_invalid_credentials :
    ∀ (sc : ScryptModel) (db : List User) (u1 u2 p1 p2 : String) (t : Field)
      (user : User),
      falsy t = false →
      getUserByUsername db u1 = none →
      getUserByUsername db u2 = some user →
      comparePasswords sc p2 user.password = .ok false →
      login sc db ⟨u1, p1, t⟩ = .ok (.error 401 msgInvalidCredentials) ∧
      login sc db ⟨u2, p2, t⟩ = .ok (.error 401 msgInvalidCredentials) := by
  intro sc db u1 u2 p1 p2 t user ht h1 h2 hcmp
  constructor
  · simp [login, ht, localStrategy, h1]
  · simp [login, ht, localStrategy, h2, hcmp]

set_option maxRecDepth 40000 in
/-- Witness for C4: `alice` is registered; logging in as the unknown
`bob` and logging in as `alice` with a wrong password yield the same
401 response. -/
theorem C4_uniform_invalid_credentials_witness :
    login scDemo [aliceUser] ⟨"bob", "x", some "tok-1"⟩
        = .ok (.error 401 msgInvalidCredentials) ∧
    login scDemo [aliceUser] ⟨"alice", "wrong", some "tok-1"⟩
        = .ok (.error 401 msgInvalidCredentials) :=
  C4_uniform_invalid_credentials scDemo [aliceUser] "bob" "alice" "x" "wrong"
    (some "tok-1") aliceUser (by decide) (by decide) (by decide) (by decide)

/-! ## Claim C5 — registration input validation -/

/-- C5: a registration request with a missing (falsy) required field, with
neither email nor phone truthy, or with `password ≠ confirmPassword`, is
rejected with one of the three 400 validation messages, and the user table
is unchanged (no account is created). -/
theorem C5_validation_rejects :
    ∀ (sc : ScryptModel) (ev : String → Bool) (db : List User) (now : Nat)
      (salt : List Nat) (req : RegisterRequest),
      ((falsy req.username || falsy req.password
          || falsy req.firstName || falsy req.lastName) = true ∨
        (falsy req.email && falsy req.phone) = true ∨
        req.password ≠ req.confirmPassword) →
      (∃ m, (register sc ev db now salt req).1 = .ok (.error 400 m) ∧
        m ∈ [msgMissingFields, msgContactRequired, msgPasswordMismatch]) ∧
      (register sc ev db now salt req).2 = db := by
  intro sc ev db now salt req h
  by_cases h1 : (falsy req.username || falsy req.password
      || falsy req.firstName || falsy req.lastName) = true
  · have : register sc ev db now salt req = (.ok (.error 400 msgMissingFields), db) := by
      simp [register, h1]
    rw [this]
    exact ⟨⟨msgMissingFields, rfl, by simp⟩, rfl⟩
  · by_cases h2 : (falsy req.email && falsy req.phone) = true
    · have : register sc ev db now salt req = (.ok (.error 400 msgContactRequired), db) := by
        simp [register, h1, h2]
      rw [this]
      exact ⟨⟨msgContactRequired, rfl, by simp⟩, rfl⟩
    · by_cases h3 : req.password = req.confirmPassword
      · rcases h with h | h | h
        · exact absurd h h1
        · exact absurd h h2
        · exact absurd h3 h
      · have : register sc ev db now salt req = (.ok (.error 400 msgPasswordMismatch), db) := by
          simp [register, h1, h2, h3]
        rw [this]
        exact ⟨⟨msgPasswordMismatch, rfl, by simp⟩, rfl⟩

/-- Witness for C5: registering with the username missing is rejected
with a 400 validation message and creates no account. -/
theorem C5_validation_rejects_witness :
    (∃ m, (register scDemo evDemo [] 0 demoSalt reqNoUsername).1 = .ok (.error 400 m) ∧
      m ∈ [msgMissingFields, msgContactRequired, msgPasswordMismatch]) ∧
    (register scDemo evDemo [] 0 demoSalt reqNoUsername).2 = [] :=
  C5_validation_rejects scDemo evDemo [] 0 demoSalt reqNoUsername (Or.inl (by decide))

/-! ## Helper lemmas for the registration success path -/

theorem find?_append_singleton {α : Type} (p : α → Bool) (l : List α) (x : α)
    (hl : l.find? p = none) (hx : p x = true) :
    (l ++ [x]).find? p = some x := by
  induction l with
  | nil => simp [hx]
  | cons a l ih =>
    have hpa : p a = false := by
      cases hpa : p a
      · rfl
      · rw [List.find?_cons_of_pos _ hpa] at hl
        cases hl
    rw [List.find?_cons_of_neg _ (by simp [hpa])] at hl
    rw [List.cons_append, List.find?_cons_of_neg _ (by simp [hpa])]
    exact ih hl

/-- A zod-valid record whose username is not yet present inserts exactly
one row and the post-insert re-fetch returns that row. -/
theorem createUser_fresh (ev : String → Bool) (db : List User) (now : Nat)
    (d : DbUser)
    (hvalid : userDbSchemaValid ev d = true)
    (hfresh : db.find? (fun v => v.username = d.username) = none) :
    createUser ev db now d =
      .ok (insertedRow db now d, db ++ [insertedRow db now d]) := by
  have hstep : createUser ev db now d =
      match (db ++ [insertedRow db now d]).find?
        (fun v => v.username = d.username) with
      | some insertedUser => .ok (insertedUser, db ++ [insertedRow db now d])
      | none => .error .retrievalFailure := by
    unfold createUser
    rw [if_pos hvalid]
  rw [hstep, find?_append_singleton _ db _ hfresh (by simp [insertedRow])]

/-- On a request that passes all three validation checks, whose username
is not yet present, and whose insert record passes the zod `userDbSchema`,
`register` appends exactly the `registeredUser` row and responds 201 with
that row minus the password. -/
theorem register_success (sc : ScryptModel) (ev : String → Bool) (db : List User)
    (now : Nat) (salt : List Nat) (req : RegisterRequest)
    (h1 : (falsy req.username || falsy req.password
      || falsy req.firstName || falsy req.lastName) = false)
    (h2 : (falsy req.email && falsy req.phone) = false)
    (h3 : req.password = req.confirmPassword)
    (hfresh : getUserByUsername db (req.username.getD "") = none)
    (hvalid : userDbSchemaValid ev (registrationRecord sc salt req) = true) :
    register sc ev db now salt req =
      (.ok (.user 201 (withoutPassword (registeredUser sc db now salt req))),
       db ++ [registeredUser sc db now salt req]) := by
  have hne : ¬ (req.password ≠ req.confirmPassword) := fun h => h h3
  have hcu := createUser_fresh ev db now (registrationRecord sc salt req) hvalid hfresh
  simp [register, h1, h2, hne, hfresh, hcu, registeredUser]

/-! ## Claim C6 — duplicate usernames -/

/-- C6: registering the same username twice (case-sensitive exact lookup):
the first call succeeds, the second call fails with status 400
"Username already exists" and leaves the table unchanged, and the table
then holds exactly one account with that username. -/
theorem C6_duplicate_username :
    ∀ (sc : ScryptModel) (ev : String → Bool) (db : List User) (n1 n2 : Nat)
      (s1 s2 : List Nat) (req : RegisterRequest),
      (falsy req.username || falsy req.password
        || falsy req.firstName || falsy req.lastName) = false →
      (falsy req.email && falsy req.phone) = false →
      req.password = req.confirmPassword →
      getUserByUsername db (req.username.getD "") = none →
      userDbSchemaValid ev (registrationRecord sc s1 req) = true →
      (register sc ev db n1 s1 req).1
          = .ok (.user 201 (withoutPassword (registeredUser sc db n1 s1 req))) ∧
      register sc ev (register sc ev db n1 s1 req).2 n2 s2 req
          = (.ok (.error 400 msgDuplicateUsername), (register sc ev db n1 s1 req).2) ∧
      ((register sc ev db n1 s1 req).2.filter
          (fun u => u.username = req.username.getD "")).length = 1 := by
  intro sc ev db n1 n2 s1 s2 req h1 h2 h3 hfresh hvalid
  have hsucc := register_success sc ev db n1 s1 req h1 h2 h3 hfresh hvalid
  have hdup : getUserByUsername (db ++ [registeredUser sc db n1 s1 req])
      (req.username.getD "") = some (registeredUser sc db n1 s1 req) := by
    unfold getUserByUsername at hfresh ⊢
    exact find?_append_singleton _ db _ hfresh
      (by simp [registeredUser, insertedRow, registrationRecord])
  have hne : ¬ (req.password ≠ req.confirmPassword) := fun h => h h3
  refine ⟨by rw [hsucc], ?_, ?_⟩
  · rw [hsucc]
    simp [register, h1, h2, hne, hdup]
  · rw [hsucc]
    have hnil : db.filter (fun u => decide (u.username = req.username.getD "")) = [] :=
      List.filter_eq_nil_iff.mpr (List.find?_eq_none.mp hfresh)
    simp [List.filter_append, hnil, registeredUser, insertedRow, registrationRecord]

set_option maxRecDepth 40000 in
/-- Witness for C6 at concrete inputs: registering `alice` twice. -/
theorem C6_duplicate_username_witness :
    (register scDemo evDemo [] 0 demoSalt reqValid).1
        = .ok (.user 201 (withoutPassword (registeredUser scDemo [] 0 demoSalt reqValid))) ∧
    register scDemo evDemo (register scDemo evDemo [] 0 demoSalt reqValid).2 1 demoSalt reqValid
        = (.ok (.error 400 msgDuplicateUsername),
           (register scDemo evDemo [] 0 demoSalt reqValid).2) ∧
    ((register scDemo evDemo [] 0 demoSalt reqValid).2.filter
        (fun u => u.username = reqValid.username.getD "")).length = 1 :=
  C6_duplicate_username scDemo evDemo [] 0 1 demoSalt demoSalt reqValid
    (by decide) (by decide) (by decide) (by decide) (by decide)

/-! ## Inversion lemmas for successful responses -/

/-- When `storage.createUser` returns a row, on a table not yet holding
the record's username, the new table is the old one plus that row, and
the row carries the record's fields with the assigned id and timestamp. -/
theorem createUser_ok_inv (ev : String → Bool) (db : List User) (now : Nat)
    (d : DbUser) (user : User) (db2 : List User)
    (hfresh : db.find? (fun v => v.username = d.username) = none)
    (h : createUser ev db now d = .ok (user, db2)) :
    db2 = db ++ [user] ∧ user.firstName = d.firstName ∧
    user.lastName = d.lastName ∧ user.username = d.username ∧
    user.email = d.email ∧ user.phone = d.phone ∧
    user.password = d.password ∧ user.authCode = d.authCode ∧
    user.id = db.length + 1 ∧ user.createdAt = now := by
  by_cases hvalid : userDbSchemaValid ev d = true
  · rw [createUser_fresh ev db now d hvalid hfresh] at h
    simp only [Except.ok.injEq, Prod.mk.injEq] at h
    obtain ⟨hu, hdb⟩ := h
    subst hu
    subst hdb
    exact ⟨rfl, rfl, rfl, rfl, rfl, rfl, rfl, rfl, rfl, rfl⟩
  · unfold createUser at h
    rw [if_neg hvalid] at h
    simp at h

/-- A successful registration response appends exactly one row and returns
that row without the password. -/
theorem register_user_inv (sc : ScryptModel) (ev : String → Bool) (db : List User)
    (now : Nat) (salt : List Nat) (req : RegisterRequest) (pu : PublicUser)
    (db1 : List User)
    (h : register sc ev db now salt req = (.ok (.user 201 pu), db1)) :
    ∃ u, db1 = db ++ [u] ∧ pu = withoutPassword u := by
  unfold register at h
  split at h
  · simp at h
  · split at h
    · simp at h
    · split at h
      · simp at h
      · split at h
        · simp at h
        · next heqFresh =>
          split at h
          · simp at h
          · next user db2 heqCU =>
            simp only [Prod.mk.injEq, Except.ok.injEq, ApiResult.user.injEq,
              true_and] at h
            have hfresh : db.find? (fun v => v.username
                = (registrationRecord sc salt req).username) = none := heqFresh
            obtain ⟨hdb2, _⟩ := createUser_ok_inv ev db now _ user db2 hfresh heqCU
            exact ⟨user, by rw [← h.2, hdb2], h.1.symm⟩

/-- A strategy success means the username was found with that account. -/
theorem localStrategy_some (sc : ScryptModel) (db : List User)
    (username password : String) (user : User)
    (h : localStrategy sc db username password = .ok (some user)) :
    getUserByUsername db username = some user := by
  unfold localStrategy at h
  split at h
  · simp at h
  · next u' heq =>
    split at h
    · simp at h
    · simp only [Except.ok.injEq, Option.some.injEq] at h
      rw [heq, h]
    · simp at h

/-- A successful login response returns the looked-up account without the
password. -/
theorem login_user_inv (sc : ScryptModel) (db : List User) (req : LoginRequest)
    (pu : PublicUser)
    (h : login sc db req = .ok (.user 200 pu)) :
    ∃ u, getUserByUsername db req.username = some u ∧ pu = withoutPassword u := by
  unfold login at h
  split at h
  · simp at h
  · split at h
    · simp at h
    · simp at h
    · next user heq =>
      simp only [Except.ok.injEq, ApiResult.user.injEq] at h
      exact ⟨user, localStrategy_some sc db req.username req.password user heq, h.2.symm⟩

/-! ## Claim C7 — responses never contain the password digest -/

/-- C7: every successful response of registration (201), login (200) and
current-user (200) is the stored account projected through
`withoutPassword`, which reproduces every account field except the
password digest and is insensitive to the digest's value. -/
theorem C7_password_digest_excluded :
    (∀ (sc : ScryptModel) (ev : String → Bool) (db : List User) (now : Nat)
        (salt : List Nat) (req : RegisterRequest) (pu : PublicUser) (db1 : List User),
       register sc ev db now salt req = (.ok (.user 201 pu), db1) →
       ∃ u, db1 = db ++ [u] ∧ pu = withoutPassword u) ∧
    (∀ (sc : ScryptModel) (db : List User) (req : LoginRequest) (pu : PublicUser),
       login sc db req = .ok (.user 200 pu) →
       ∃ u, getUserByUsername db req.username = some u ∧ pu = withoutPassword u) ∧
    (∀ u : User, currentUser (some u) = .user 200 (withoutPassword u)) ∧
    (∀ u : User,
       (withoutPassword u).id = u.id ∧ (withoutPassword u).username = u.username ∧
       (withoutPassword u).firstName = u.firstName ∧
       (withoutPassword u).lastName = u.lastName ∧
       (withoutPassword u).email = u.email ∧ (withoutPassword u).phone = u.phone ∧
       (withoutPassword u).authCode = u.authCode ∧
       (withoutPassword u).createdAt = u.createdAt) ∧
    (∀ (u : User) (p : String), withoutPassword { u with password := p } = withoutPassword u) := by
  refine ⟨register_user_inv, login_user_inv, fun u => rfl, fun u => ?_, fun u p => rfl⟩
  exact ⟨rfl, rfl, rfl, rfl, rfl, rfl, rfl, rfl⟩

set_option maxRecDepth 40000 in
/-- Witness for C7: a concrete successful registration and login. -/
theorem C7_password_digest_excluded_witness :
    (∃ u, [aliceUser] = [] ++ [u] ∧ withoutPassword aliceUser = withoutPassword u) ∧
    (∃ u, getUserByUsername [aliceUser] "alice" = some u ∧
      withoutPassword aliceUser = withoutPassword u) :=
  ⟨C7_password_digest_excluded.1 scDemo evDemo [] 0 demoSalt reqValid
     (withoutPassword aliceUser) [aliceUser] (by decide),
   C7_password_digest_excluded.2.1 scDemo [aliceUser]
     ⟨"alice", "Secret123!", some "tok-1"⟩ (withoutPassword aliceUser) (by decide)⟩

/-! ## Claim C8 — logout always succeeds and is idempotent -/

/-- C8: for every session store and every session id (an absent one
included), logout responds 200 with no error path, removes the session,
and running it twice equals running it once. -/
theorem C8_logout_idempotent :
    ∀ (store : SessionStore) (sid : String),
      (logout store sid).1 = 200 ∧
      (∀ aid, (sid, aid) ∉ (logout store sid).2) ∧
      logout (logout store sid).2 sid = logout store sid := by
  intro store sid
  refine ⟨rfl, ?_, ?_⟩
  · intro aid hmem
    have h := (List.mem_filter.mp hmem).2
    simp at h
  · show (200, destroySession (destroySession store sid) sid)
        = (200, destroySession store sid)
    have h : destroySession (destroySession store sid) sid = destroySession store sid :=
      List.filter_eq_self.mpr (fun a ha => (List.mem_filter.mp ha).2)
    rw [h]

/-! ## Claim C9 — empty optional fields are stored as null -/

/-- C9: the row created by a registration stores `email`, `phone` and
`authCode` through the `x || null` normalization (so an empty string
becomes null), and a request with both contact fields as empty strings is
processed exactly as one with both fields absent. -/
theorem C9_empty_optionals_normalized :
    (∀ (sc : ScryptModel) (ev : String → Bool) (db : List User) (now : Nat)
        (salt : List Nat) (req : RegisterRequest)
        (r1 : Except StorageError ApiResult) (db1 : List User) (u : User),
       register sc ev db now salt req = (r1, db1) → db1 = db ++ [u] →
       u.email = orNull req.email ∧ u.phone = orNull req.phone ∧
       u.authCode = orNull req.authCode) ∧
    orNull (some "") = none ∧
    (∀ (sc : ScryptModel) (ev : String → Bool) (db : List User) (now : Nat)
        (salt : List Nat) (req : RegisterRequest),
       req.email = some "" → req.phone = some "" →
       register sc ev db now salt req
         = register sc ev db now salt { req with email := none, phone := none }) := by
  refine ⟨?_, rfl, ?_⟩
  · intro sc ev db now salt req r1 db1 u h h2
    unfold register at h
    split at h
    · cases h
      have hl := congrArg List.length h2
      simp at hl
    · split at h
      · cases h
        have hl := congrArg List.length h2
        simp at hl
      · split at h
        · cases h
          have hl := congrArg List.length h2
          simp at hl
        · split at h
          · cases h
            have hl := congrArg List.length h2
            simp at hl
          · next heqFresh =>
            split at h
            · cases h
              have hl := congrArg List.length h2
              simp at hl
            · next user db2 heqCU =>
              cases h
              have hfresh : db.find? (fun v => v.username
                  = (registrationRecord sc salt req).username) = none := heqFresh
              obtain ⟨hdb2, _, _, _, hem, hph, _, hac, _, _⟩ :=
                createUser_ok_inv ev db now _ user db1 hfresh heqCU
              rw [hdb2] at h2
              have hu := List.append_cancel_left h2
              simp only [List.cons.injEq, and_true] at hu
              rw [← hu]
              exact ⟨hem, hph, hac⟩
  · intro sc ev db now salt req hemail hphone
    by_cases h1 : (falsy req.username || falsy req.password
        || falsy req.firstName || falsy req.lastName) = true
    · simp [register, h1]
    · simp [register, h1, hemail, hphone, falsy]

set_option maxRecDepth 40000 in
/-- Witness for C9 at concrete inputs: `carol` registers with empty
`email` and `authCode` strings; both are stored as null, and a request
with both contact fields empty behaves as with both absent. -/
theorem C9_empty_optionals_normalized_witness :
    ((registeredUser scDemo [] 0 demoSalt reqEmptyOptionals).email
        = orNull reqEmptyOptionals.email ∧
      (registeredUser scDemo [] 0 demoSalt reqEmptyOptionals).phone
        = orNull reqEmptyOptionals.phone ∧
      (registeredUser scDemo [] 0 demoSalt reqEmptyOptionals).authCode
        = orNull reqEmptyOptionals.authCode) ∧
    register scDemo evDemo [] 0 demoSalt reqBothEmpty
      = register scDemo evDemo [] 0 demoSalt
          { reqBothEmpty with email := none, phone := none } :=
  ⟨C9_empty_optionals_normalized.1 scDemo evDemo [] 0 demoSalt reqEmptyOptionals _ _
     (registeredUser scDemo [] 0 demoSalt reqEmptyOptionals) rfl (by decide),
   C9_empty_optionals_normalized.2.2 scDemo evDemo [] 0 demoSalt reqBothEmpty rfl rfl⟩

/-! ## Claim C10 — the empty plaintext is hashable and verifiable -/

theorem hexCharVal_isSome_of_mem {c : Char} {bs : List Nat}
    (h : c ∈ bytesToHexChars bs) : (hexCharVal c).isSome = true := by
  simp only [bytesToHexChars, List.mem_flatten, List.mem_map] at h
  obtain ⟨l, ⟨b, _, rfl⟩, hmem⟩ := h
  simp only [byteToHexChars, List.mem_cons, List.not_mem_nil, or_false] at hmem
  rcases hmem with rfl | rfl
  · rw [hexCharVal_hexDigitChar _ (Nat.mod_lt _ (by norm_num))]
    rfl
  · rw [hexCharVal_hexDigitChar _ (Nat.mod_lt _ (by norm_num))]
    rfl

/-- C10: hashing the empty plaintext succeeds and produces a digest of the
usual shape — 128 hex characters, a `.`, then 32 hex characters for a
16-byte salt — and verifying `""` against it returns true. -/
theorem C10_empty_password_hashable :
    ∀ (sc : ScryptModel) (saltBytes : List Nat), saltBytes.length = 16 →
      ∃ keyHex saltHex : List Char,
        (hashPassword sc "" saltBytes).data = keyHex ++ '.' :: saltHex ∧
        keyHex.length = 128 ∧ saltHex.length = 32 ∧
        (∀ c ∈ keyHex, (hexCharVal c).isSome = true) ∧
        (∀ c ∈ saltHex, (hexCharVal c).isSome = true) ∧
        comparePasswords sc "" (hashPassword sc "" saltBytes) = .ok true := by
  intro sc saltBytes hlen
  refine ⟨bytesToHexChars (sc.run "" (bytesToHex saltBytes)), bytesToHexChars saltBytes,
    data_hashPassword sc "" saltBytes, ?_, ?_,
    fun c hc => hexCharVal_isSome_of_mem hc,
    fun c hc => hexCharVal_isSome_of_mem hc,
    comparePasswords_hashPassword_self sc "" saltBytes⟩
  · rw [length_bytesToHexChars, sc.len_run]
  · rw [length_bytesToHexChars, hlen]

set_option maxRecDepth 40000 in
/-- Witness for C10 at the concrete 16-byte salt. -/
theorem C10_empty_password_hashable_witness :
    ∃ keyHex saltHex : List Char,
      (hashPassword scDemo "" demoSalt).data = keyHex ++ '.' :: saltHex ∧
      keyHex.length = 128 ∧ saltHex.length = 32 ∧
      (∀ c ∈ keyHex, (hexCharVal c).isSome = true) ∧
      (∀ c ∈ saltHex, (hexCharVal c).isSome = true) ∧
      comparePasswords scDemo "" (hashPassword scDemo "" demoSalt) = .ok true :=
  C10_empty_password_hashable scDemo demoSalt (by decide)

end LoginPortal



